import Mathlib

/-!
Shallow embedding of aapt2's `tools/aapt2/configuration/ConfigurationParser.cpp`
(the post-processing split-APK configuration resolver), together with theorems
about its resolution, naming and tag-handling logic.

Strings are modelled as Lean `String` (a structure over `List Char`), with the
C++ `std::string::find` / `rfind` / `replace` operations implemented explicitly
over the underlying character lists.  `Maybe<T>` is modelled as `Option T`.
Diagnostics are a write-only side channel in the C++ code and are not modelled;
only the success/failure results of each function are.  A C++ function that can
throw an uncaught exception (e.g. `std::unordered_map::at`, `std::stoi`) is
modelled as returning `Option`, with `none` for the escaping exception.
-/

namespace Aapt

/-- Decides whether the pattern `ph` occurs in `s` at offset `i`. -/
def matchAt (ph s : List Char) (i : Nat) : Bool :=
  decide ((s.drop i).take ph.length = ph)

/-- All offsets (in increasing order) at which `ph` occurs in `s`.  Offsets run
up to and including `s.length`, matching C++ `find`/`rfind` semantics for the
empty pattern. -/
def occIndices (ph s : List Char) : List Nat :=
  (List.range (s.length + 1)).filter (matchAt ph s)

/-- Number of occurrences of `ph` in `s` (counting positions, as `find` does). -/
def occCount (ph s : List Char) : Nat :=
  (occIndices ph s).length

/-- Embedding of `std::string::find`: offset of the first occurrence of `ph` in
`s`, or `none` (C++ `npos`) when there is none. -/
def findSubstr (ph s : List Char) : Option Nat :=
  (occIndices ph s).head?

/-- Embedding of `std::string::rfind`: offset of the last occurrence. -/
def rfindSubstr (ph s : List Char) : Option Nat :=
  (occIndices ph s).getLast?

/-- Embedding of `util::EndsWith`. -/
def strEndsWith (s suf : String) : Bool :=
  decide (s.data.drop (s.data.length - suf.data.length) = suf.data)

/-- Embedding of `util::TrimWhitespace` (strip leading and trailing whitespace). -/
def trimStr (s : String) : String :=
  ⟨((s.data.dropWhile Char.isWhitespace).reverse.dropWhile Char.isWhitespace).reverse⟩

/-- Modelled from the spec: `file::GetFilename` (from `util/Files`, not part of
the provided sources) returns the final path component, i.e. the text after the
last directory separator. -/
def GetFilename (s : String) : String :=
  ⟨(s.data.reverse.takeWhile (fun c => !(c = '/'))).reverse⟩

/-- Modelled from the spec: `file::GetExtension` (from `util/Files`, not part of
the provided sources) returns the extension of the file name including its
leading dot, or the empty string when there is none. -/
def GetExtension (s : String) : String :=
  ⟨s.data.dropWhile (fun c => !(c = '.'))⟩

/--
Embedding of `ReplacePlaceholder` (ConfigurationParser.cpp lines 144-174).
Returns the updated name on success and `none` on failure: failure when the
value is present but the placeholder is absent, when the placeholder is present
but the value is absent, or when after replacing the first occurrence the
placeholder still occurs in the name.
-/
def ReplacePlaceholder (placeholder : String) (value : Option String)
    (name : String) : Option String :=
  match findSubstr placeholder.data name.data with
  | none =>
    match value with
    | some _ => none
    | none => some name
  | some offset =>
    match value with
    | none => none
    | some v =>
      match findSubstr placeholder.data
          (name.data.take offset ++ v.data ++
            name.data.drop (offset + placeholder.data.length)) with
      | some _ => none
      | none =>
        some ⟨name.data.take offset ++ v.data ++
          name.data.drop (offset + placeholder.data.length)⟩

/-- The name with the first occurrence of `placeholder` replaced by `v` (the
name itself when there is no occurrence). -/
def substFirst (placeholder v name : String) : String :=
  match findSubstr placeholder.data name.data with
  | none => name
  | some offset =>
    ⟨name.data.take offset ++ v.data ++
      name.data.drop (offset + placeholder.data.length)⟩

/-- Decides that no nonempty proper shift of `ph` matches `ph` itself; for such
patterns two distinct occurrences in any string cannot overlap. -/
def noSelfOverlapB (ph : List Char) : Bool :=
  (List.range ph.length).all
    (fun d => decide (d = 0) || !(decide ((ph.drop d).take (ph.length - d) = ph.take (ph.length - d))))

/-- The six axis placeholders substituted by `ConfiguredArtifact::ToArtifactName`. -/
def axisPlaceholders : List String :=
  ["${abi}", "${density}", "${locale}", "${sdk}", "${feature}", "${gl}"]

/-- Embedding of the `Abi` enumeration (8 known architectures). -/
inductive Abi where
  | kArmeV6
  | kArmV7a
  | kArm64V8a
  | kX86
  | kX86_64
  | kMips
  | kMips64
  | kUniversal
deriving DecidableEq

/-- Embedding of `kStringToAbiMap` (ConfigurationParser.cpp lines 77-81). -/
def kStringToAbiMap : List (String × Abi) :=
  [("armeabi", Abi.kArmeV6), ("armeabi-v7a", Abi.kArmV7a), ("arm64-v8a", Abi.kArm64V8a),
   ("x86", Abi.kX86), ("x86_64", Abi.kX86_64), ("mips", Abi.kMips),
   ("mips64", Abi.kMips64), ("universal", Abi.kUniversal)]

/-- Total lookup in `kStringToAbiMap`; `none` models the missing key on which
`std::unordered_map::at` throws `std::out_of_range`. -/
def lookupAbi (s : String) : Option Abi :=
  (kStringToAbiMap.find? (fun p => p.1 = s)).map (fun p => p.2)

/-- Modelled from the spec: `AndroidSdk` (declared in
`configuration/ConfigurationParser.h`, not part of the provided sources):
optional minimum, target and maximum SDK integers plus an optional manifest
marker. -/
structure AndroidSdk where
  min_sdk_version : Option Int := none
  target_sdk_version : Option Int := none
  max_sdk_version : Option Int := none
  manifest : Option Unit := none
deriving DecidableEq

/-- Modelled from the spec: `GlTexture` — a name plus an ordered list of
texture-path strings. -/
structure GlTexture where
  name : String := ""
  texture_paths : List String := []
deriving DecidableEq

/-- Modelled from the spec: `Group<T>` is a label-keyed mapping to ordered lists
of values, with insertion order preserved and labels unique; modelled as an
association list. -/
abbrev Group (T : Type) : Type := List (String × List T)

/-- Looks a label up in a group mapping. -/
def findGroup {T : Type} (g : Group T) (label : String) : Option (List T) :=
  (g.find? (fun p => p.1 = label)).map (fun p => p.2)

/-- Embedding of `operator[]` followed by mutation through the returned
reference: applies `f` to the (possibly freshly created, empty) entry at
`label`. -/
def updateGroup {T : Type} (g : Group T) (label : String) (f : List T → List T) :
    Group T :=
  if (g.find? (fun p => p.1 = label)).isSome then
    g.map (fun p => if p.1 = label then (p.1, f p.2) else p)
  else
    g ++ [(label, f [])]

/-- Assignment `m[label] = entry` for the SDK mapping. -/
def setSdkGroup (g : List (String × AndroidSdk)) (label : String)
    (entry : AndroidSdk) : List (String × AndroidSdk) :=
  if (g.find? (fun p => p.1 = label)).isSome then
    g.map (fun p => if p.1 = label then (p.1, entry) else p)
  else
    g ++ [(label, entry)]

/-- Modelled from the spec: `ConfiguredArtifact` (declared in
`configuration/ConfigurationParser.internal.h`, not part of the provided
sources): an artifact template with an optional literal name, a resolved
version, and up to six optional group-label references.  Its `operator<` and
`operator==` compare the version, per the spec's duplicate-version rule. -/
structure ConfiguredArtifact where
  name : Option String := none
  version : Int := 0
  abi_group : Option String := none
  screen_density_group : Option String := none
  locale_group : Option String := none
  android_sdk_group : Option String := none
  gl_texture_group : Option String := none
  device_feature_group : Option String := none
deriving DecidableEq

/-- Modelled from the spec: `OutputArtifact` — a fully resolved variant
descriptor.  Locale and density qualifier values are opaque collaborator data
and are modelled as strings. -/
structure OutputArtifact where
  name : String := ""
  abis : List Abi := []
  locales : List String := []
  screen_densities : List String := []
  features : List String := []
  textures : List GlTexture := []
  android_sdk : Option AndroidSdk := none
deriving DecidableEq

/-- Modelled from the spec: `PostProcessingConfiguration` — the six group
mappings, the artifact templates in declaration order, and the optional global
name format. -/
structure PostProcessingConfiguration where
  artifacts : List ConfiguredArtifact := []
  artifact_format : Option String := none
  abi_groups : Group Abi := []
  screen_density_groups : Group String := []
  locale_groups : Group String := []
  gl_texture_groups : Group GlTexture := []
  device_feature_groups : Group String := []
  android_sdk_groups : List (String × AndroidSdk) := []
deriving DecidableEq

/--
Embedding of `CopyXmlReferences` (ConfigurationParser.cpp lines 119-137).
`none` reference: nothing to do, no error.  Missing label: failure.  Otherwise
the group's contents are appended to the target in order.
-/
def CopyXmlReferences {T : Type} (name : Option String) (groups : Group T)
    (target : List T) : Option (List T) :=
  match name with
  | none => some target
  | some n =>
    match findGroup groups n with
    | none => none
    | some items => some (target ++ items)

/--
Embedding of `ToBaseName` (ConfigurationParser.cpp lines 333-363): substitutes
the optional basename and extension placeholders and appends the extension when
it is neither referenced nor already a suffix of the result.
-/
def ToBaseName (result0 apk_name : String) : Option String :=
  let ext := GetExtension apk_name
  let base_name : String :=
    match rfindSubstr ext.data apk_name.data with
    | some i => ⟨apk_name.data.take i⟩
    | none => ""
  let step1 : Option String :=
    if (findSubstr "${basename}".data result0.data).isSome then
      ReplacePlaceholder "${basename}"
        (if base_name = "" then none else some base_name) result0
    else some result0
  match step1 with
  | none => none
  | some r1 =>
    if (findSubstr "${ext}".data r1.data).isSome then
      ReplacePlaceholder "${ext}" (some ⟨ext.data.drop 1⟩) r1
    else if strEndsWith r1 ext then some r1
    else some ⟨r1.data ++ ext.data⟩

/-- The first six steps of `ConfiguredArtifact::ToArtifactName`: base-name
processing followed by the abi, density, locale, sdk and feature placeholder
substitutions — everything before the texture (`gl`) placeholder step. -/
def ConfiguredArtifact.preGlName (a : ConfiguredArtifact)
    (format apk_name : String) : Option String :=
  (ToBaseName format apk_name).bind fun r0 =>
  (ReplacePlaceholder "${abi}" a.abi_group r0).bind fun r1 =>
  (ReplacePlaceholder "${density}" a.screen_density_group r1).bind fun r2 =>
  (ReplacePlaceholder "${locale}" a.locale_group r2).bind fun r3 =>
  (ReplacePlaceholder "${sdk}" a.android_sdk_group r3).bind fun r4 =>
  ReplacePlaceholder "${feature}" a.device_feature_group r4

/-- Embedding of `ConfiguredArtifact::ToArtifactName` (ConfigurationParser.cpp
lines 365-399): base-name processing followed by the six axis placeholder
substitutions, the texture placeholder last. -/
def ConfiguredArtifact.ToArtifactName (a : ConfiguredArtifact)
    (format apk_name : String) : Option String :=
  (a.preGlName format apk_name).bind fun r5 =>
  ReplacePlaceholder "${gl}" a.gl_texture_group r5

/-- Embedding of `ConfiguredArtifact::Name` (ConfigurationParser.cpp lines
401-407): base-name processing of the artifact's own literal name only — no
axis placeholder substitution or checking happens on this path. -/
def ConfiguredArtifact.Name (a : ConfiguredArtifact) (apk_name : String) :
    Option String :=
  match a.name with
  | none => none
  | some n => ToBaseName n apk_name

/-- The artifact-name computation of `ToOutputArtifact` (ConfigurationParser.cpp
lines 251-264): the artifact's own literal name is used when present, else the
global format; failure when neither exists or the chosen path fails. -/
def artifactNameOf (a : ConfiguredArtifact) (cfg : PostProcessingConfiguration)
    (apk_name : String) : Option String :=
  match a.name, cfg.artifact_format with
  | none, none => none
  | some _, _ => a.Name apk_name
  | none, some fmt => a.ToArtifactName fmt apk_name

/-- The SDK-reference resolution of `ToOutputArtifact` (lines 305-314): no
reference yields no SDK entry and no error; a dangling label is an error. -/
def resolveSdk (ref : Option String) (groups : List (String × AndroidSdk)) :
    Option (Option AndroidSdk) :=
  match ref with
  | none => some none
  | some lbl =>
    match (groups.find? (fun p => p.1 = lbl)).map (fun p => p.2) with
    | none => none
    | some e => some (some e)

/--
Embedding of `ToOutputArtifact` (ConfigurationParser.cpp lines 247-320).  The
C++ code accumulates `has_errors` over all six reference copies and fails at
the end when any failed; the result is `none` exactly when the name or any
reference resolution failed, which the `Option.bind` chain reproduces.
-/
def ToOutputArtifact (a : ConfiguredArtifact) (apk_name : String)
    (cfg : PostProcessingConfiguration) : Option OutputArtifact :=
  (artifactNameOf a cfg apk_name).bind fun nm =>
  (CopyXmlReferences a.abi_group cfg.abi_groups []).bind fun abis =>
  (CopyXmlReferences a.locale_group cfg.locale_groups []).bind fun locs =>
  (CopyXmlReferences a.screen_density_group cfg.screen_density_groups []).bind fun dens =>
  (CopyXmlReferences a.device_feature_group cfg.device_feature_groups []).bind fun feats =>
  (CopyXmlReferences a.gl_texture_group cfg.gl_texture_groups []).bind fun texs =>
  (resolveSdk a.android_sdk_group cfg.android_sdk_groups).map fun sdk =>
  { name := nm, abis := abis, locales := locs, screen_densities := dens,
    features := feats, textures := texs, android_sdk := sdk }

/-- Version comparison used to sort the artifact templates (the spec's
`operator<` on `ConfiguredArtifact`). -/
def artifactLe (a b : ConfiguredArtifact) : Prop :=
  a.version ≤ b.version

instance : DecidableRel artifactLe :=
  fun a b => inferInstanceAs (Decidable (a.version ≤ b.version))

instance : IsTotal ConfiguredArtifact artifactLe :=
  ⟨fun a b => Int.le_total a.version b.version⟩

instance : IsTrans ConfiguredArtifact artifactLe :=
  ⟨fun _ _ _ h1 h2 => le_trans h1 h2⟩

/-- Strict version comparison, used to reason about the sorted template list. -/
def artifactLt (a b : ConfiguredArtifact) : Prop :=
  a.version < b.version

instance : IsTrans ConfiguredArtifact artifactLt :=
  ⟨fun _ _ _ h1 h2 => lt_trans h1 h2⟩

/-- The sorted copy of the templates made by `Parse` (line 437-438). -/
def sortedArtifacts (cfg : PostProcessingConfiguration) : List ConfiguredArtifact :=
  List.insertionSort artifactLe cfg.artifacts

/-- Embedding of the `std::adjacent_find` duplicate-version check (line 439),
with the spec's `operator==` comparing versions. -/
def hasAdjacentDup : List ConfiguredArtifact → Bool
  | a :: b :: rest => (a.version == b.version) || hasAdjacentDup (b :: rest)
  | _ => false

/-- The resolution loop of `Parse` (lines 449-460): failures set the error flag
and processing continues; successes are appended in order. -/
def resolveLoop (cfg : PostProcessingConfiguration) (apk_name : String) :
    List ConfiguredArtifact → List OutputArtifact → Bool →
    List OutputArtifact × Bool
  | [], acc, err => (acc, err)
  | a :: rest, acc, err =>
    match ToOutputArtifact a apk_name cfg with
    | none => resolveLoop cfg apk_name rest acc true
    | some o => resolveLoop cfg apk_name rest (acc ++ [o]) err

/--
Embedding of `ConfigurationParser::Parse` (ConfigurationParser.cpp lines
425-466), starting from the extracted `PostProcessingConfiguration` (the XML
document extraction is an external collaborator pass): sort a copy of the
templates by version, abort on any adjacent duplicate version, then resolve
every template of the sorted copy, returning `none` if any resolution failed
and the full list otherwise.
-/
def Parse (cfg : PostProcessingConfiguration) (apk_path : String) :
    Option (List OutputArtifact) :=
  if hasAdjacentDup (sortedArtifacts cfg) then none
  else if (resolveLoop cfg (GetFilename apk_path) (sortedArtifacts cfg) [] false).2 then none
  else some (resolveLoop cfg (GetFilename apk_path) (sortedArtifacts cfg) [] false).1

/-!
XML document model: the collaborator `xml::Element`/`xml::Text` node tree is
modelled as a simple nested inductive.  Only the pieces the tag handlers
consume are represented: element name, attributes, ordered children.
-/

/-- An XML attribute. -/
structure XmlAttr where
  name : String
  value : String
deriving DecidableEq

/-- An XML node: an element with attributes and ordered children, or text. -/
inductive XmlNode where
  | element (name : String) (attributes : List XmlAttr) (children : List XmlNode)
  | text (content : String)

/-- Element name (empty for a text node). -/
def XmlNode.name : XmlNode → String
  | .element n _ _ => n
  | .text _ => ""

/-- Attribute list (empty for a text node). -/
def XmlNode.attributes : XmlNode → List XmlAttr
  | .element _ attrs _ => attrs
  | .text _ => []

/-- Child node list (empty for a text node). -/
def XmlNode.childNodes : XmlNode → List XmlNode
  | .element _ _ cs => cs
  | .text _ => []

/-- Whether a node is an element. -/
def XmlNode.isElement : XmlNode → Bool
  | .element _ _ _ => true
  | .text _ => false

/-- Embedding of `Element::GetChildElements`. -/
def XmlNode.childElements (n : XmlNode) : List XmlNode :=
  n.childNodes.filter XmlNode.isElement

/-- Text content of a node when it is a text node. -/
def XmlNode.textOf : XmlNode → Option String
  | .text s => some s
  | .element _ _ _ => none

/-- The first text child's content, as the `NodeCast<xml::Text>` + `break`
loops in the handlers compute it. -/
def XmlNode.firstText (n : XmlNode) : Option String :=
  (n.childNodes.filterMap XmlNode.textOf).head?

/-- Contents of every text child, in order (for loops without a `break`). -/
def XmlNode.allTexts (n : XmlNode) : List String :=
  n.childNodes.filterMap XmlNode.textOf

/-- Embedding of `GetLabel` (ConfigurationParser.cpp lines 94-107): the first
`label` attribute's value, or the empty string (an error is logged). -/
def getLabel (element : XmlNode) : String :=
  match element.attributes.find? (fun a => a.name = "label") with
  | some a => a.value
  | none => ""

/-!
Tag handlers.  Each handler embeds one `bool XyzTagHandler(config, element,
diag)` function.  A handler that can only report errors returns the updated
configuration and the validity flag; a handler that can let a C++ exception
escape (`std::stoi`, `std::unordered_map::at`) wraps that pair in `Option`,
`none` being the escaping exception.
-/

/-- Embedding of `std::stoi` as called at ConfigurationParser.cpp line 482:
skip leading whitespace and an optional sign, then require at least one
decimal digit (text after the digits is ignored).  `none` models the two
exceptions the unguarded call can throw: `std::invalid_argument` when no
digits are found, and `std::out_of_range` when the parsed value does not fit
a 32-bit `int` (outside [-2147483648, 2147483647]). -/
def stoiOpt (s : String) : Option Int :=
  let cs := s.data.dropWhile Char.isWhitespace
  let signRest : Int × List Char :=
    match cs with
    | '-' :: r => (-1, r)
    | '+' :: r => (1, r)
    | r => (1, r)
  let digits := signRest.2.takeWhile Char.isDigit
  if digits.isEmpty then none
  else
    let value : Int :=
      signRest.1 * (digits.foldl (fun acc c => acc * 10 + (Int.ofNat (c.toNat - 48))) (0 : Int))
    if value < -2147483648 ∨ 2147483647 < value then none
    else some value

/-- The attribute-reading loop of `ArtifactTagHandler` (lines 478-499): updates
the template being built and the optional explicit version; `none` when
`std::stoi` throws on a `version` attribute. -/
def artifactAttrFold : List XmlAttr → ConfiguredArtifact → Option Int →
    Option (ConfiguredArtifact × Option Int)
  | [], a, v => some (a, v)
  | at_ :: rest, a, v =>
    if at_.name = "name" then artifactAttrFold rest { a with name := some at_.value } v
    else if at_.name = "version" then
      match stoiOpt at_.value with
      | none => none
      | some n => artifactAttrFold rest a (some n)
    else if at_.name = "abi-group" then
      artifactAttrFold rest { a with abi_group := some at_.value } v
    else if at_.name = "screen-density-group" then
      artifactAttrFold rest { a with screen_density_group := some at_.value } v
    else if at_.name = "locale-group" then
      artifactAttrFold rest { a with locale_group := some at_.value } v
    else if at_.name = "android-sdk-group" then
      artifactAttrFold rest { a with android_sdk_group := some at_.value } v
    else if at_.name = "gl-texture-group" then
      artifactAttrFold rest { a with gl_texture_group := some at_.value } v
    else if at_.name = "device-feature-group" then
      artifactAttrFold rest { a with device_feature_group := some at_.value } v
    else artifactAttrFold rest a v

/-- Embedding of `ArtifactTagHandler` (ConfigurationParser.cpp lines 471-505):
reads the attributes, assigns the version (explicit, else one more than the
previous declared artifact's version, starting from 0 when there is none) and
appends exactly one artifact.  `none` models the uncaught `std::stoi`
exception on a non-numeric `version` attribute — the handler itself has no
error branch and otherwise always returns `true`. -/
def ArtifactTagHandler (config : PostProcessingConfiguration)
    (root_element : XmlNode) : Option (PostProcessingConfiguration × Bool) :=
  match artifactAttrFold root_element.attributes {} none with
  | none => none
  | some (a, v) =>
    some ({ config with
              artifacts := config.artifacts ++
                [{ a with
                    version :=
                      match v with
                      | some n => n
                      | none =>
                        (match config.artifacts.getLast? with
                         | none => 0
                         | some p => p.version) + 1 }] },
          true)

/-- The child loop of `AbiGroupTagHandler` (lines 529-542): collects the parsed
abis in order and the validity flag; `none` models the `std::out_of_range`
exception thrown by `kStringToAbiMap.at` on an unknown architecture string. -/
def abiGroupChildren : List XmlNode → Option (List Abi × Bool)
  | [] => some ([], true)
  | c :: rest =>
    if c.name ≠ "abi" then
      (abiGroupChildren rest).map (fun p => (p.1, false))
    else
      match c.firstText with
      | none => abiGroupChildren rest
      | some t =>
        match lookupAbi (trimStr t) with
        | none => none
        | some abi => (abiGroupChildren rest).map (fun p => (abi :: p.1, p.2))

/-- Embedding of `AbiGroupTagHandler` (ConfigurationParser.cpp lines 519-545). -/
def AbiGroupTagHandler (config : PostProcessingConfiguration)
    (root_element : XmlNode) : Option (PostProcessingConfiguration × Bool) :=
  let label := getLabel root_element
  if label = "" then some (config, false)
  else
    match abiGroupChildren root_element.childElements with
    | none => none
    | some (abis, valid) =>
      some ({ config with
                abi_groups := updateGroup config.abi_groups label (fun g => g ++ abis) },
            valid)

/-- Texture paths contributed by one `gl-texture` child: for each of its
`texture-path` child elements, every text child's trimmed content (the inner
loop has no `break`). -/
def texturePathTexts (child : XmlNode) : List String :=
  (child.childElements.map (fun el =>
    if el.name = "texture-path" then el.allTexts.map trimStr else [])).flatten

/-- One iteration of the `GlTextureGroupTagHandler` child loop acting on the
accumulator declared outside the loop: a non-`gl-texture` child leaves it
unchanged; a `gl-texture` child overwrites the name with its first `name`
attribute (when present) and appends its texture paths. -/
def glChildStep (acc : GlTexture) (child : XmlNode) : GlTexture :=
  if child.name ≠ "gl-texture" then acc
  else
    { name :=
        match child.attributes.find? (fun a => a.name = "name") with
        | some a => a.value
        | none => acc.name,
      texture_paths := acc.texture_paths ++ texturePathTexts child }

/-- The sequence of `group.push_back(result)` values produced by the
`GlTextureGroupTagHandler` child loop: one push per child, of the accumulator
as updated so far. -/
def glPushes (acc : GlTexture) : List XmlNode → List GlTexture
  | [] => []
  | c :: rest =>
    let acc' := glChildStep acc c
    acc' :: glPushes acc' rest

/-- The validity flag of the `GlTextureGroupTagHandler` child loop. -/
def glValid (children : List XmlNode) : Bool :=
  children.all (fun c =>
    c.name = "gl-texture" && c.childElements.all (fun el => el.name = "texture-path"))

/-- Embedding of `GlTextureGroupTagHandler` (ConfigurationParser.cpp lines
687-728): the accumulator is declared once before the child loop, never reset,
and pushed into the group once per loop iteration. -/
def GlTextureGroupTagHandler (config : PostProcessingConfiguration)
    (root_element : XmlNode) : PostProcessingConfiguration × Bool :=
  let label := getLabel root_element
  if label = "" then (config, false)
  else
    let pushes := glPushes {} root_element.childElements
    ({ config with
         gl_texture_groups :=
           updateGroup config.gl_texture_groups label (fun g => g ++ pushes) },
     glValid root_element.childElements)

/-!
Concrete configurations and XML elements used as counterexamples and witness
inputs in the theorems below.
-/

/-- The value of `childPathsOf` for one child of a GL texture group: a
`gl-texture` child contributes its texture paths, any other child contributes
nothing. -/
def childPathsOf (c : XmlNode) : List String :=
  if c.name = "gl-texture" then texturePathTexts c else []

/-- An artifact template declared first, with version 2. -/
def c2artB : ConfiguredArtifact := { name := some "b", version := 2 }

/-- An artifact template declared second, with version 1. -/
def c2artA : ConfiguredArtifact := { name := some "a", version := 1 }

/-- A configuration declaring the version-2 artifact before the version-1 one. -/
def c2cexCfg : PostProcessingConfiguration := { artifacts := [c2artB, c2artA] }

/-- The resolved artifact for the version-1 template. -/
def c2outA : OutputArtifact := { name := "a.apk" }

/-- The resolved artifact for the version-2 template. -/
def c2outB : OutputArtifact := { name := "b.apk" }

/-- An artifact referencing the two-entry abi group labeled `arm`. -/
def c7wArt : ConfiguredArtifact := { name := some "n", version := 1, abi_group := some "arm" }

/-- The resolved artifact for `c7wArt`. -/
def c7wOut : OutputArtifact := { name := "n.apk", abis := [Abi.kArmV7a, Abi.kArm64V8a] }

/-- An artifact with a literal name omitting the texture placeholder while
referencing a texture group. -/
def c5cexArt : ConfiguredArtifact :=
  { name := some "lit", version := 1, gl_texture_group := some "tex" }

/-- A configuration exercising the literal-name path with a texture reference. -/
def c5cexCfg : PostProcessingConfiguration :=
  { artifacts := [c5cexArt],
    gl_texture_groups := [("tex", [{ name := "t", texture_paths := ["p"] }])] }

/-- A format-named artifact referencing a texture group. -/
def c5wArt : ConfiguredArtifact := { version := 1, gl_texture_group := some "tex" }

/-- A configuration whose global format omits the texture placeholder. -/
def c5wCfg : PostProcessingConfiguration :=
  { artifacts := [c5wArt], artifact_format := some "a",
    gl_texture_groups := [("tex", [{ name := "t" }])] }

/-- Two artifact templates sharing version 1. -/
def c3wCfg : PostProcessingConfiguration :=
  { artifacts := [{ name := some "x", version := 1 }, { name := some "y", version := 1 }] }

/-- A configuration with one artifact referencing a missing abi group label and
one fully valid artifact. -/
def c1wCfg : PostProcessingConfiguration :=
  { artifacts := [{ name := some "n", version := 1, abi_group := some "missing" },
                  { name := some "m", version := 2 }] }

/-- A configuration with an artifact referencing an existing two-entry abi
group. -/
def c7wCfg : PostProcessingConfiguration :=
  { artifacts := [c7wArt],
    abi_groups := [("arm", [Abi.kArmV7a, Abi.kArm64V8a])] }

/-- An abi group element with one child whose text is not a known architecture. -/
def c8elemBad : XmlNode :=
  .element "abi-group" [⟨"label", "arm"⟩] [.element "abi" [] [.text "sparc"]]

/-- An abi group element with an unknown architecture entry followed by a valid
sibling entry. -/
def c8elemBadSib : XmlNode :=
  .element "abi-group" [⟨"label", "arm"⟩]
    [.element "abi" [] [.text "sparc"], .element "abi" [] [.text "x86"]]

/-- An abi group element with two valid entries. -/
def c8elemGood : XmlNode :=
  .element "abi-group" [⟨"label", "arm"⟩]
    [.element "abi" [] [.text " x86 "], .element "abi" [] [.text "mips"]]

/-- A GL texture group element with two `gl-texture` children separated by a
stray child element. -/
def c9wElem : XmlNode :=
  .element "gl-texture-group" [⟨"label", "tex"⟩]
    [.element "gl-texture" [⟨"name", "etc1"⟩] [.element "texture-path" [] [.text " p1 "]],
     .element "stray" [] [],
     .element "gl-texture" [⟨"name", "atc"⟩] [.element "texture-path" [] [.text "p2"]]]

/-- An artifact element with no version attribute. -/
def c6wElem : XmlNode :=
  .element "artifact" [⟨"name", "n"⟩, ⟨"abi-group", "arm"⟩] []

/-- A configuration whose last declared artifact has version 5. -/
def c6wCfg : PostProcessingConfiguration := { artifacts := [{ version := 5 }] }

/-- The configuration produced by handling `c6wElem` on top of `c6wCfg`. -/
def c6wCfgAfter : PostProcessingConfiguration :=
  { artifacts := [{ version := 5 },
                  { name := some "n", version := 6, abi_group := some "arm" }] }

/-- An artifact element with a numeric version attribute. -/
def c10wElemGood : XmlNode := .element "artifact" [⟨"version", " 7 "⟩] []

/-- An artifact element with a non-numeric version attribute. -/
def c10wElemBad : XmlNode := .element "artifact" [⟨"version", "x7"⟩] []

/-- An artifact element whose version attribute does not fit a 32-bit int. -/
def c10wElemOverflow : XmlNode :=
  .element "artifact" [⟨"version", "2147483648"⟩] []

/-!
Substring occurrence toolkit.
-/

lemma mem_occIndices {ph s : List Char} {i : Nat} :
    i ∈ occIndices ph s ↔ i ≤ s.length ∧ (s.drop i).take ph.length = ph := by
  simp [occIndices, List.mem_filter, List.mem_range, matchAt, Nat.lt_succ_iff, and_comm]

lemma occIndices_pairwise (ph s : List Char) :
    (occIndices ph s).Pairwise (· < ·) :=
  (List.pairwise_lt_range _).sublist (List.filter_sublist _)

lemma occCount_eq_zero_iff {ph s : List Char} :
    occCount ph s = 0 ↔ findSubstr ph s = none := by
  unfold occCount findSubstr
  cases occIndices ph s <;> simp

lemma findSubstr_isSome_of_mem {ph s : List Char} {p : Nat}
    (h : p ∈ occIndices ph s) : findSubstr ph s ≠ none := by
  unfold findSubstr
  cases hocc : occIndices ph s with
  | nil => rw [hocc] at h; cases h
  | cons a t => simp

lemma findSubstr_mem {ph s : List Char} {i : Nat}
    (h : findSubstr ph s = some i) : i ∈ occIndices ph s := by
  unfold findSubstr at h
  cases hocc : occIndices ph s with
  | nil => rw [hocc] at h; cases h
  | cons a t =>
    rw [hocc] at h
    simp only [List.head?] at h
    cases h
    exact List.mem_cons_self _ _

lemma two_occ_exists {ph s : List Char} (h : 2 ≤ occCount ph s) :
    ∃ i j, findSubstr ph s = some i ∧ j ∈ occIndices ph s ∧ i < j := by
  unfold occCount at h
  unfold findSubstr
  match hocc : occIndices ph s with
  | [] => rw [hocc] at h; simp at h
  | [a] => rw [hocc] at h; simp at h
  | a :: b :: t =>
    have hp := occIndices_pairwise ph s
    rw [hocc] at hp
    refine ⟨a, b, rfl, List.mem_cons_of_mem _ (List.mem_cons_self _ _), ?_⟩
    exact (List.pairwise_cons.mp hp).1 b (List.mem_cons_self _ _)

lemma occ_add_length_le {ph s : List Char} {i : Nat} (hL : 0 < ph.length)
    (h : (s.drop i).take ph.length = ph) : i + ph.length ≤ s.length := by
  have hlen : (ph.length).min (s.length - i) = ph.length := by
    have := congrArg List.length h
    simpa [List.length_take, List.length_drop] using this
  have h1 : ph.length ≤ s.length - i := by
    rw [← hlen]
    exact Nat.min_le_right _ _
  have h2 : i < s.length := by
    by_contra hc
    push_neg at hc
    omega
  omega

lemma occ_no_overlap {ph s : List Char} {i j : Nat}
    (hno : noSelfOverlapB ph = true)
    (hi : (s.drop i).take ph.length = ph) (hj : (s.drop j).take ph.length = ph)
    (hij : i < j) : i + ph.length ≤ j := by
  by_contra hlt
  push_neg at hlt
  have hd0 : 0 < j - i := Nat.sub_pos_of_lt hij
  have hdL : j - i < ph.length := by omega
  have e1 : ph.drop (j - i) = (s.drop j).take (ph.length - (j - i)) := by
    conv =>
      lhs
      rw [← hi]
    rw [List.drop_take, List.drop_drop]
    have : i + (j - i) = j := by omega
    rw [this]
  have e2 : ph.take (ph.length - (j - i)) = (s.drop j).take (ph.length - (j - i)) := by
    nth_rewrite 2 [← hj]
    rw [List.take_take]
    rw [Nat.min_eq_left (Nat.sub_le _ _)]
  have e : (ph.drop (j - i)).take (ph.length - (j - i)) = ph.take (ph.length - (j - i)) := by
    rw [e1, e2, List.take_take, Nat.min_self]
  have hall := hno
  unfold noSelfOverlapB at hall
  rw [List.all_eq_true] at hall
  have := hall (j - i) (List.mem_range.mpr hdL)
  simp only [Bool.or_eq_true, decide_eq_true_eq, Bool.not_eq_true'] at this
  rcases this with h0 | hne
  · omega
  · rw [e] at hne
    simp at hne

lemma occ_in_replacement {ph v s : List Char} {i j : Nat}
    (hL : 0 < ph.length)
    (_hi : (s.drop i).take ph.length = ph) (hj : (s.drop j).take ph.length = ph)
    (hij : i + ph.length ≤ j) :
    ∃ p, p ∈ occIndices ph (s.take i ++ v ++ s.drop (i + ph.length)) := by
  have hjlen : j + ph.length ≤ s.length := occ_add_length_le hL hj
  have hilen : i ≤ s.length := by omega
  have htakelen : (s.take i).length = i := by
    simp [List.length_take, Nat.min_eq_left hilen]
  refine ⟨i + v.length + (j - (i + ph.length)), ?_⟩
  rw [mem_occIndices]
  constructor
  · simp only [List.length_append, htakelen, List.length_drop]
    omega
  · have hsplit : (s.take i ++ v ++ s.drop (i + ph.length)) =
        s.take i ++ (v ++ s.drop (i + ph.length)) := by
      rw [List.append_assoc]
    rw [hsplit]
    have d1 : (s.take i ++ (v ++ s.drop (i + ph.length))).drop
        (i + v.length + (j - (i + ph.length))) =
        (v ++ s.drop (i + ph.length)).drop (v.length + (j - (i + ph.length))) := by
      have : i + v.length + (j - (i + ph.length)) =
          i + (v.length + (j - (i + ph.length))) := by omega
      rw [this, ← List.drop_drop, List.drop_left' htakelen]
    have d2 : (v ++ s.drop (i + ph.length)).drop (v.length + (j - (i + ph.length))) =
        (s.drop (i + ph.length)).drop (j - (i + ph.length)) := by
      rw [← List.drop_drop, List.drop_left' rfl]
    have d3 : (s.drop (i + ph.length)).drop (j - (i + ph.length)) = s.drop j := by
      rw [List.drop_drop]
      congr 1
      omega
    rw [d1, d2, d3, hj]

lemma axisPlaceholders_ok :
    ∀ p ∈ axisPlaceholders, noSelfOverlapB p.data = true ∧ 0 < p.data.length := by
  decide

lemma strMk_data (l : List Char) : (⟨l⟩ : String).data = l := rfl

/--
Claim C4 (amended).  For every axis placeholder, every name string and every
referenced group label: (1) if the placeholder occurs exactly once and the
artifact referenced the axis, the placeholder is substituted with the label,
provided the placeholder no longer occurs in the substituted string — when the
label itself reintroduces the placeholder text, formatting fails with a
multiple-occurrence error; (2) if it occurs exactly once but the axis was not
referenced, formatting fails; (3) if it occurs zero times but the axis was
referenced, formatting fails; (4) if it occurs more than once, formatting
fails.
-/
theorem c4_placeholder_contract (ph : String) (hmem : ph ∈ axisPlaceholders)
    (name v : String) :
    (occCount ph.data name.data = 1 →
      ReplacePlaceholder ph (some v) name =
        (if occCount ph.data (substFirst ph v name).data = 0
         then some (substFirst ph v name) else none))
    ∧ (occCount ph.data name.data = 1 → ReplacePlaceholder ph none name = none)
    ∧ (occCount ph.data name.data = 0 → ReplacePlaceholder ph (some v) name = none)
    ∧ (2 ≤ occCount ph.data name.data →
        ∀ value, ReplacePlaceholder ph value name = none) := by
  refine ⟨?_, ?_, ?_, ?_⟩
  · intro h1
    have hne : occIndices ph.data name.data ≠ [] := by
      unfold occCount at h1
      intro hc
      rw [hc] at h1
      simp at h1
    cases hocc : occIndices ph.data name.data with
    | nil => exact absurd hocc hne
    | cons i t =>
      have hfind : findSubstr ph.data name.data = some i := by
        unfold findSubstr
        rw [hocc]
        rfl
      unfold ReplacePlaceholder substFirst
      rw [hfind]
      dsimp only
      cases hfs : findSubstr ph.data
          (name.data.take i ++ v.data ++ name.data.drop (i + ph.data.length)) with
      | none =>
        have hz : occCount ph.data
            (name.data.take i ++ v.data ++ name.data.drop (i + ph.data.length)) = 0 :=
          occCount_eq_zero_iff.mpr hfs
        rw [if_pos hz]
      | some p =>
        have hz : ¬ occCount ph.data
            (name.data.take i ++ v.data ++ name.data.drop (i + ph.data.length)) = 0 := by
          intro hc
          have hn := occCount_eq_zero_iff.mp hc
          rw [hfs] at hn
          exact Option.noConfusion hn
        rw [if_neg hz]
  · intro h1
    have hne : occIndices ph.data name.data ≠ [] := by
      unfold occCount at h1
      intro hc
      rw [hc] at h1
      simp at h1
    cases hocc : occIndices ph.data name.data with
    | nil => exact absurd hocc hne
    | cons i t =>
      have hfind : findSubstr ph.data name.data = some i := by
        unfold findSubstr
        rw [hocc]
        rfl
      unfold ReplacePlaceholder
      rw [hfind]
  · intro h0
    have hfind : findSubstr ph.data name.data = none := occCount_eq_zero_iff.mp h0
    unfold ReplacePlaceholder
    rw [hfind]
  · intro h2 value
    obtain ⟨i, j, hfind, hjmem, hij⟩ := two_occ_exists h2
    cases value with
    | none =>
      unfold ReplacePlaceholder
      rw [hfind]
    | some v' =>
      have hok := axisPlaceholders_ok ph hmem
      have himem := findSubstr_mem hfind
      rw [mem_occIndices] at himem hjmem
      have hov : i + ph.data.length ≤ j := occ_no_overlap hok.1 himem.2 hjmem.2 hij
      obtain ⟨p, hp⟩ := occ_in_replacement (v := v'.data) hok.2 himem.2 hjmem.2 hov
      have hnn := findSubstr_isSome_of_mem hp
      unfold ReplacePlaceholder
      rw [hfind]
      dsimp only
      cases hfs : findSubstr ph.data
          (name.data.take i ++ v'.data ++ name.data.drop (i + ph.data.length)) with
      | none => exact absurd hfs hnn
      | some q => rfl

/-- Claim C4, counterexample to the claim as stated: the placeholder occurs
exactly once and the artifact referenced the axis, yet name formatting fails,
because the referenced group label itself contains the placeholder text. -/
theorem c4_counterexample :
    "${abi}" ∈ axisPlaceholders ∧
    occCount "${abi}".data "x${abi}".data = 1 ∧
    ReplacePlaceholder "${abi}" (some "${abi}") "x${abi}" = none := by
  decide

/-- Claim C4, witness: the four amended cases at concrete inputs. -/
theorem c4_witness :
    ReplacePlaceholder "${abi}" (some "armeabi") "x${abi}" = some "xarmeabi" ∧
    ReplacePlaceholder "${abi}" none "x${abi}" = none ∧
    ReplacePlaceholder "${abi}" (some "armeabi") "x" = none ∧
    ReplacePlaceholder "${abi}" (some "armeabi") "${abi}y${abi}" = none := by
  have h1 := c4_placeholder_contract "${abi}" (by decide) "x${abi}" "armeabi"
  have h2 := c4_placeholder_contract "${abi}" (by decide) "x" "armeabi"
  have h3 := c4_placeholder_contract "${abi}" (by decide) "${abi}y${abi}" "armeabi"
  exact ⟨(h1.1 (by decide)).trans (by decide), h1.2.1 (by decide),
    h2.2.2.1 (by decide), h3.2.2.2 (by decide) (some "armeabi")⟩

/-!
Resolution-stage lemmas.
-/

lemma resolveLoop_err_true (cfg : PostProcessingConfiguration) (apk_name : String) :
    ∀ (l : List ConfiguredArtifact) (acc : List OutputArtifact),
    (resolveLoop cfg apk_name l acc true).2 = true := by
  intro l
  induction l with
  | nil => intro acc; rfl
  | cons a rest ih =>
    intro acc
    unfold resolveLoop
    cases ToOutputArtifact a apk_name cfg with
    | none => exact ih acc
    | some o => exact ih (acc ++ [o])

lemma resolveLoop_mem_fail (cfg : PostProcessingConfiguration) (apk_name : String)
    (a : ConfiguredArtifact) (hf : ToOutputArtifact a apk_name cfg = none) :
    ∀ (l : List ConfiguredArtifact), a ∈ l →
    ∀ (acc : List OutputArtifact) (err : Bool),
    (resolveLoop cfg apk_name l acc err).2 = true := by
  intro l
  induction l with
  | nil => intro h; cases h
  | cons b rest ih =>
    intro hmem acc err
    unfold resolveLoop
    rcases List.mem_cons.mp hmem with heq | hmem'
    · subst heq
      rw [hf]
      exact resolveLoop_err_true cfg apk_name rest acc
    · cases hb : ToOutputArtifact b apk_name cfg with
      | none => exact resolveLoop_err_true cfg apk_name rest acc
      | some o => exact ih hmem' (acc ++ [o]) err

lemma resolveLoop_success (cfg : PostProcessingConfiguration) (apk_name : String) :
    ∀ (l : List ConfiguredArtifact) (acc res : List OutputArtifact) (err : Bool),
    resolveLoop cfg apk_name l acc err = (res, false) →
    err = false ∧ ∃ outs, res = acc ++ outs ∧
      List.Forall₂ (fun a o => ToOutputArtifact a apk_name cfg = some o) l outs := by
  intro l
  induction l with
  | nil =>
    intro acc res err h
    unfold resolveLoop at h
    injection h with h1 h2
    exact ⟨h2, [], by simp [h1], List.Forall₂.nil⟩
  | cons a rest ih =>
    intro acc res err h
    unfold resolveLoop at h
    cases ha : ToOutputArtifact a apk_name cfg with
    | none =>
      rw [ha] at h
      obtain ⟨herr, _, _, _⟩ := ih _ _ _ h
      exact absurd herr (by simp)
    | some o =>
      rw [ha] at h
      obtain ⟨herr, outs, hres, hfa⟩ := ih _ _ _ h
      refine ⟨herr, o :: outs, ?_, List.Forall₂.cons ha hfa⟩
      rw [hres, List.append_assoc]
      rfl

lemma Parse_none_of_mem_fail (cfg : PostProcessingConfiguration) (apk_path : String)
    (a : ConfiguredArtifact) (ha : a ∈ cfg.artifacts)
    (hf : ToOutputArtifact a (GetFilename apk_path) cfg = none) :
    Parse cfg apk_path = none := by
  unfold Parse
  by_cases hd : hasAdjacentDup (sortedArtifacts cfg) = true
  · rw [if_pos hd]
  · rw [if_neg hd]
    have hmem : a ∈ sortedArtifacts cfg := by
      unfold sortedArtifacts
      rw [List.mem_insertionSort]
      exact ha
    have h2 := resolveLoop_mem_fail cfg (GetFilename apk_path) a hf _ hmem [] false
    rw [if_pos h2]

lemma hasAdjacentDup_eq_false_iff (l : List ConfiguredArtifact) :
    hasAdjacentDup l = false ↔ l.Chain' (fun a b => a.version ≠ b.version) := by
  induction l with
  | nil => simp [hasAdjacentDup]
  | cons a t ih =>
    cases t with
    | nil => simp [hasAdjacentDup]
    | cons b t' =>
      have hunf : hasAdjacentDup (a :: b :: t') =
          ((a.version == b.version) || hasAdjacentDup (b :: t')) := rfl
      rw [List.chain'_cons, ← ih, hunf]
      simp [Bool.or_eq_false_iff]

lemma chain'_artifactLt (l : List ConfiguredArtifact)
    (hs : List.Sorted artifactLe l)
    (hne : l.Chain' (fun a b => a.version ≠ b.version)) :
    l.Chain' artifactLt := by
  induction l with
  | nil => exact List.chain'_nil
  | cons a t ih =>
    cases t with
    | nil => simp [List.chain'_singleton]
    | cons b t' =>
      rw [List.chain'_cons] at hne ⊢
      have hle : artifactLe a b := (List.sorted_cons.mp hs).1 b (List.mem_cons_self _ _)
      refine ⟨lt_of_le_of_ne hle hne.1, ?_⟩
      exact ih (List.sorted_cons.mp hs).2 hne.2

lemma pairwise_version_ne_of_no_dup (cfg : PostProcessingConfiguration)
    (hd : hasAdjacentDup (sortedArtifacts cfg) = false) :
    cfg.artifacts.Pairwise (fun a b => a.version ≠ b.version) := by
  have hs := List.sorted_insertionSort artifactLe cfg.artifacts
  have hne := (hasAdjacentDup_eq_false_iff _).mp hd
  have hlt : (sortedArtifacts cfg).Chain' artifactLt := chain'_artifactLt _ hs hne
  have hplt : (sortedArtifacts cfg).Pairwise artifactLt := List.chain'_iff_pairwise.mp hlt
  have hpne : (sortedArtifacts cfg).Pairwise (fun a b => a.version ≠ b.version) :=
    hplt.imp (fun h => ne_of_lt h)
  exact ((List.perm_insertionSort artifactLe cfg.artifacts).pairwise_iff
    (fun hxy => Ne.symm hxy)).mp hpne

/--
Claim C1: resolution is all-or-nothing — for every configuration and input
path, if any artifact template of the configuration fails to resolve to an
`OutputArtifact`, the overall `Parse` call returns `none` rather than a list;
successfully resolved artifacts are never returned partially.
-/
theorem c1_parse_all_or_nothing (cfg : PostProcessingConfiguration) (apk_path : String)
    (h : ∃ a ∈ cfg.artifacts, ToOutputArtifact a (GetFilename apk_path) cfg = none) :
    Parse cfg apk_path = none := by
  obtain ⟨a, ha, hf⟩ := h
  exact Parse_none_of_mem_fail cfg apk_path a ha hf

/-- Claim C1, witness: a configuration where one artifact references a missing
abi group label while the other artifact is fully valid resolves to nothing. -/
theorem c1_witness : Parse c1wCfg "dir/app.apk" = none :=
  c1_parse_all_or_nothing c1wCfg "dir/app.apk"
    ⟨{ name := some "n", version := 1, abi_group := some "missing" },
     by decide, by decide⟩

/--
Claim C2 (amended): when `Parse` succeeds, the returned list corresponds
one-to-one, in order, to the artifact templates sorted by version ascending (a
permutation of the declared templates) — i.e. resolution happens in
version-sorted order, not in original declaration order.
-/
theorem c2_resolution_order (cfg : PostProcessingConfiguration) (apk_path : String)
    (l : List OutputArtifact) (h : Parse cfg apk_path = some l) :
    List.Forall₂ (fun a o => ToOutputArtifact a (GetFilename apk_path) cfg = some o)
      (sortedArtifacts cfg) l
    ∧ List.Sorted artifactLe (sortedArtifacts cfg)
    ∧ (sortedArtifacts cfg).Perm cfg.artifacts := by
  refine ⟨?_, List.sorted_insertionSort _ _, List.perm_insertionSort _ _⟩
  unfold Parse at h
  by_cases hd : hasAdjacentDup (sortedArtifacts cfg) = true
  · rw [if_pos hd] at h
    cases h
  · rw [if_neg hd] at h
    by_cases hr : (resolveLoop cfg (GetFilename apk_path) (sortedArtifacts cfg) [] false).2 = true
    · rw [if_pos hr] at h
      cases h
    · rw [if_neg hr] at h
      injection h with h1
      have hpair : resolveLoop cfg (GetFilename apk_path) (sortedArtifacts cfg) [] false =
          (l, false) := by
        have he : resolveLoop cfg (GetFilename apk_path) (sortedArtifacts cfg) [] false =
            ((resolveLoop cfg (GetFilename apk_path) (sortedArtifacts cfg) [] false).1,
             (resolveLoop cfg (GetFilename apk_path) (sortedArtifacts cfg) [] false).2) := rfl
        rw [he, h1, Bool.not_eq_true] at *
        rw [hr]
      obtain ⟨_, outs, hres, hfa⟩ := resolveLoop_success cfg (GetFilename apk_path) _ [] l false hpair
      rw [List.nil_append] at hres
      rw [← hres] at hfa
      exact hfa

/-- Claim C2, counterexample to the claim as stated: two templates declared in
the order version 2 then version 1 both resolve, and `Parse` returns the
version-1 artifact first — the output list is ordered by version, not by
declaration order. -/
theorem c2_counterexample :
    c2cexCfg.artifacts = [c2artB, c2artA] ∧
    c2artB.version = 2 ∧ c2artA.version = 1 ∧
    ToOutputArtifact c2artA (GetFilename "app.apk") c2cexCfg = some c2outA ∧
    ToOutputArtifact c2artB (GetFilename "app.apk") c2cexCfg = some c2outB ∧
    Parse c2cexCfg "app.apk" = some [c2outA, c2outB] := by
  decide

/-- Claim C2, witness: the amended statement applied to the concrete
two-template configuration. -/
theorem c2_witness :
    List.Forall₂ (fun a o => ToOutputArtifact a (GetFilename "app.apk") c2cexCfg = some o)
      (sortedArtifacts c2cexCfg) [c2outA, c2outB] :=
  (c2_resolution_order c2cexCfg "app.apk" [c2outA, c2outB] (by decide)).1

/--
Claim C3: two artifact templates with equal resolved versions make the whole
`Parse` call fail with no output: the duplicate check on the version-sorted
copy aborts resolution.
-/
theorem c3_duplicate_version_fails (cfg : PostProcessingConfiguration)
    (apk_path : String) (i j : Nat)
    (hi : i < cfg.artifacts.length) (hj : j < cfg.artifacts.length) (hij : i ≠ j)
    (hv : (cfg.artifacts.get ⟨i, hi⟩).version = (cfg.artifacts.get ⟨j, hj⟩).version) :
    Parse cfg apk_path = none := by
  unfold Parse
  by_cases hd : hasAdjacentDup (sortedArtifacts cfg) = true
  · rw [if_pos hd]
  · exfalso
    have hp := pairwise_version_ne_of_no_dup cfg (Bool.not_eq_true _ ▸ hd)
    have hg := List.pairwise_iff_get.mp hp
    rcases lt_or_gt_of_ne hij with hlt | hgt
    · exact (hg ⟨i, hi⟩ ⟨j, hj⟩ hlt) hv
    · exact (hg ⟨j, hj⟩ ⟨i, hi⟩ hgt) hv.symm

/-- Claim C3, witness: two templates with explicit version 1 each make `Parse`
return nothing. -/
theorem c3_witness : Parse c3wCfg "app.apk" = none :=
  c3_duplicate_version_fails c3wCfg "app.apk" 0 1 (by decide) (by decide)
    (by decide) (by decide)

/--
Claim C5 (amended): for every artifact without a literal name that references a
texture group, if the name string produced by the base-name stage and the first
five placeholder substitutions of the global format does not contain the
texture placeholder, formatting the artifact's name fails, so the whole `Parse`
call fails.  (An artifact with its own literal name, by contrast, undergoes no
placeholder check at all — see the counterexample.)
-/
theorem c5_texture_placeholder (cfg : PostProcessingConfiguration) (apk_path : String)
    (a : ConfiguredArtifact) (fmt : String)
    (ha : a ∈ cfg.artifacts) (hn : a.name = none)
    (hf : cfg.artifact_format = some fmt)
    (hgl : a.gl_texture_group.isSome = true)
    (hpre : ∀ s, a.preGlName fmt (GetFilename apk_path) = some s →
      occCount "${gl}".data s.data = 0) :
    Parse cfg apk_path = none := by
  apply Parse_none_of_mem_fail cfg apk_path a ha
  have hname : artifactNameOf a cfg (GetFilename apk_path) = none := by
    unfold artifactNameOf
    rw [hn, hf]
    dsimp only
    unfold ConfiguredArtifact.ToArtifactName
    cases hpg : a.preGlName fmt (GetFilename apk_path) with
    | none => rfl
    | some s =>
      have h0 := hpre s hpg
      have hfs : findSubstr "${gl}".data s.data = none := occCount_eq_zero_iff.mp h0
      obtain ⟨v, hv⟩ := Option.isSome_iff_exists.mp hgl
      dsimp only [Option.bind]
      unfold ReplacePlaceholder
      rw [hfs, hv]
  unfold ToOutputArtifact
  rw [hname]
  rfl

/-- Claim C5, counterexample to the claim as stated: an artifact with a literal
name that omits the texture placeholder while referencing an existing texture
group resolves successfully — the whole `Parse` call succeeds, because the
literal-name path never checks placeholders. -/
theorem c5_counterexample :
    c5cexArt.name = some "lit" ∧
    occCount "${gl}".data "lit".data = 0 ∧
    c5cexArt.gl_texture_group = some "tex" ∧
    Parse c5cexCfg "app.apk" =
      some [{ name := "lit.apk", textures := [{ name := "t", texture_paths := ["p"] }] }] := by
  decide

/-- Claim C5, witness: a format-named artifact referencing a texture group
under a global format without the texture placeholder makes `Parse` fail. -/
theorem c5_witness : Parse c5wCfg "app.apk" = none := by
  apply c5_texture_placeholder c5wCfg "app.apk" c5wArt "a" (by decide) (by decide)
    (by decide) (by decide)
  intro s hs
  rw [(by decide : c5wArt.preGlName "a" (GetFilename "app.apk") = some "a.apk")] at hs
  injection hs with hs'
  rw [← hs']
  decide

lemma copyXml_some_inv {T : Type} (lbl : String) (groups : Group T) (res : List T)
    (h : CopyXmlReferences (some lbl) groups [] = some res) :
    findGroup groups lbl = some res := by
  unfold CopyXmlReferences at h
  dsimp only at h
  split at h
  · exact Option.noConfusion h
  · rename_i items heq
    injection h with h'
    rw [heq, ← h']
    simp

/--
Claim C7: for every artifact and every axis, an axis with no reference resolves
to the empty list with no error, and an axis referencing an existing group
label resolves to exactly the group's contents in their original order (the
SDK reference resolves to a single optional value).
-/
theorem c7_reference_copy :
    (∀ (T : Type) (groups : Group T) (target : List T),
        CopyXmlReferences none groups target = some target)
    ∧ ∀ (cfg : PostProcessingConfiguration) (apk_name : String)
        (a : ConfiguredArtifact) (out : OutputArtifact),
      ToOutputArtifact a apk_name cfg = some out →
      ((a.abi_group = none → out.abis = []) ∧
        (∀ lbl, a.abi_group = some lbl → findGroup cfg.abi_groups lbl = some out.abis)) ∧
      ((a.locale_group = none → out.locales = []) ∧
        (∀ lbl, a.locale_group = some lbl →
          findGroup cfg.locale_groups lbl = some out.locales)) ∧
      ((a.screen_density_group = none → out.screen_densities = []) ∧
        (∀ lbl, a.screen_density_group = some lbl →
          findGroup cfg.screen_density_groups lbl = some out.screen_densities)) ∧
      ((a.device_feature_group = none → out.features = []) ∧
        (∀ lbl, a.device_feature_group = some lbl →
          findGroup cfg.device_feature_groups lbl = some out.features)) ∧
      ((a.gl_texture_group = none → out.textures = []) ∧
        (∀ lbl, a.gl_texture_group = some lbl →
          findGroup cfg.gl_texture_groups lbl = some out.textures)) ∧
      ((a.android_sdk_group = none → out.android_sdk = none) ∧
        (∀ lbl, a.android_sdk_group = some lbl → ∃ e,
          (cfg.android_sdk_groups.find? (fun p => p.1 = lbl)).map (fun p => p.2) = some e ∧
          out.android_sdk = some e)) := by
  constructor
  · intro T groups target
    rfl
  · intro cfg apk_name a out h
    unfold ToOutputArtifact at h
    rw [Option.bind_eq_some] at h
    obtain ⟨nm, hnm, h⟩ := h
    rw [Option.bind_eq_some] at h
    obtain ⟨abis, habis, h⟩ := h
    rw [Option.bind_eq_some] at h
    obtain ⟨locs, hlocs, h⟩ := h
    rw [Option.bind_eq_some] at h
    obtain ⟨dens, hdens, h⟩ := h
    rw [Option.bind_eq_some] at h
    obtain ⟨feats, hfeats, h⟩ := h
    rw [Option.bind_eq_some] at h
    obtain ⟨texs, htexs, h⟩ := h
    rw [Option.map_eq_some'] at h
    obtain ⟨sdk, hsdk, hout⟩ := h
    subst hout
    refine ⟨⟨?_, ?_⟩, ⟨?_, ?_⟩, ⟨?_, ?_⟩, ⟨?_, ?_⟩, ⟨?_, ?_⟩, ⟨?_, ?_⟩⟩
    · intro hz
      rw [hz] at habis
      injection habis with h'
      exact h'.symm
    · intro lbl hl
      rw [hl] at habis
      exact copyXml_some_inv lbl _ _ habis
    · intro hz
      rw [hz] at hlocs
      injection hlocs with h'
      exact h'.symm
    · intro lbl hl
      rw [hl] at hlocs
      exact copyXml_some_inv lbl _ _ hlocs
    · intro hz
      rw [hz] at hdens
      injection hdens with h'
      exact h'.symm
    · intro lbl hl
      rw [hl] at hdens
      exact copyXml_some_inv lbl _ _ hdens
    · intro hz
      rw [hz] at hfeats
      injection hfeats with h'
      exact h'.symm
    · intro lbl hl
      rw [hl] at hfeats
      exact copyXml_some_inv lbl _ _ hfeats
    · intro hz
      rw [hz] at htexs
      injection htexs with h'
      exact h'.symm
    · intro lbl hl
      rw [hl] at htexs
      exact copyXml_some_inv lbl _ _ htexs
    · intro hz
      rw [hz] at hsdk
      unfold resolveSdk at hsdk
      injection hsdk with h'
      exact h'.symm
    · intro lbl hl
      rw [hl] at hsdk
      unfold resolveSdk at hsdk
      dsimp only at hsdk
      split at hsdk
      · exact Option.noConfusion hsdk
      · rename_i e heq
        injection hsdk with h'
        exact ⟨e, heq, h'.symm⟩

/-- Claim C7, witness: an artifact referencing a two-entry abi group resolves
with exactly those two entries in order, and every unreferenced axis resolves
to the empty list. -/
theorem c7_witness :
    findGroup c7wCfg.abi_groups "arm" = some c7wOut.abis ∧
    c7wOut.abis = [Abi.kArmV7a, Abi.kArm64V8a] ∧
    c7wOut.locales = [] ∧ c7wOut.textures = [] := by
  have h := (c7_reference_copy.2 c7wCfg "app.apk" c7wArt c7wOut (by decide))
  exact ⟨h.1.2 "arm" (by decide), by decide, h.2.1.1 (by decide), h.2.2.2.2.1.1 (by decide)⟩

/-!
Tag-handler lemmas and theorems.
-/

lemma artifactAttrFold_no_version :
    ∀ (attrs : List XmlAttr) (a : ConfiguredArtifact) (v : Option Int),
    (∀ x ∈ attrs, x.name ≠ "version") →
    ∃ a', artifactAttrFold attrs a v = some (a', v) := by
  intro attrs
  induction attrs with
  | nil =>
    intro a v _
    exact ⟨a, rfl⟩
  | cons at_ rest ih =>
    intro a v hno
    have hver : at_.name ≠ "version" := hno at_ (List.mem_cons_self _ _)
    have hrest : ∀ x ∈ rest, x.name ≠ "version" :=
      fun x hx => hno x (List.mem_cons_of_mem _ hx)
    unfold artifactAttrFold
    split_ifs with h1 h2 h3 h4 h5 h6 h7 _h8 <;>
      first
        | exact absurd h2 hver
        | exact ih _ _ hrest

lemma artifactAttrFold_total :
    ∀ (attrs : List XmlAttr) (a : ConfiguredArtifact) (v : Option Int),
    (∀ x ∈ attrs, x.name = "version" → (stoiOpt x.value).isSome = true) →
    ∃ pr, artifactAttrFold attrs a v = some pr := by
  intro attrs
  induction attrs with
  | nil =>
    intro a v _
    exact ⟨(a, v), rfl⟩
  | cons at_ rest ih =>
    intro a v hok
    have hrest : ∀ x ∈ rest, x.name = "version" → (stoiOpt x.value).isSome = true :=
      fun x hx => hok x (List.mem_cons_of_mem _ hx)
    unfold artifactAttrFold
    split_ifs with h1 h2 h3 h4 h5 h6 h7 _h8 <;>
      first
        | (obtain ⟨n, hn⟩ := Option.isSome_iff_exists.mp
            (hok at_ (List.mem_cons_self _ _) h2)
           rw [hn]
           exact ih _ _ hrest)
        | exact ih _ _ hrest

lemma artifactAttrFold_bad_version :
    ∀ (attrs : List XmlAttr) (a : ConfiguredArtifact) (v : Option Int) (x : XmlAttr),
    x ∈ attrs → x.name = "version" → stoiOpt x.value = none →
    artifactAttrFold attrs a v = none := by
  intro attrs
  induction attrs with
  | nil =>
    intro a v x hx
    cases hx
  | cons at_ rest ih =>
    intro a v x hx hxn hxs
    rcases List.mem_cons.mp hx with heq | hmem
    · subst heq
      unfold artifactAttrFold
      rw [if_neg (by rw [hxn]; decide), if_pos hxn, hxs]
    · unfold artifactAttrFold
      split_ifs with h1 h2 h3 h4 h5 h6 h7 h8 <;>
        first
          | (cases hs : stoiOpt at_.value with
             | none => rfl
             | some n => exact ih _ _ x hmem hxn hxs)
          | exact ih _ _ x hmem hxn hxs

/--
Claim C6: the artifact tag handler assigns a missing version attribute the
value one more than the immediately preceding declared artifact's resolved
version (explicit or auto-assigned), and 1 when the artifact is the first
declared.
-/
theorem c6_version_auto_assignment (cfg : PostProcessingConfiguration)
    (elem : XmlNode) (cfg' : PostProcessingConfiguration) (b : Bool)
    (h : ArtifactTagHandler cfg elem = some (cfg', b))
    (hnov : ∀ x ∈ elem.attributes, x.name ≠ "version") :
    ∃ a, cfg'.artifacts = cfg.artifacts ++ [a] ∧
      a.version = (match cfg.artifacts.getLast? with
        | none => (1 : Int)
        | some p => p.version + 1) := by
  obtain ⟨a', hfold⟩ := artifactAttrFold_no_version elem.attributes {} none hnov
  unfold ArtifactTagHandler at h
  rw [hfold] at h
  dsimp only at h
  injection h with h'
  injection h' with hcfg hb
  refine ⟨{ a' with version :=
      (match cfg.artifacts.getLast? with
       | none => (0 : Int)
       | some p => p.version) + 1 }, ?_, ?_⟩
  · rw [← hcfg]
  · dsimp only
    cases hl : cfg.artifacts.getLast? with
    | none => simp
    | some p => simp

/-- Claim C6, witness: on top of a configuration whose last artifact has
version 5, an artifact element without a version attribute is appended with
version 6. -/
theorem c6_witness :
    ∃ a, c6wCfgAfter.artifacts = c6wCfg.artifacts ++ [a] ∧
      a.version = (match c6wCfg.artifacts.getLast? with
        | none => (1 : Int)
        | some p => p.version + 1) :=
  c6_version_auto_assignment c6wCfg c6wElem c6wCfgAfter true (by decide) (by decide)

/--
Claim C10: the artifact tag handler's version parsing is an unguarded `stoi`:
whenever every `version` attribute's text parses as a decimal integer (at
least one digit, value within 32-bit int range), the handler returns `true`
and appends exactly one artifact; a `version` attribute on which `stoi`
throws — non-numeric text or an out-of-range value — makes the handler throw
(no error branch, no diagnostic).
-/
theorem c10_unguarded_version :
    (∀ (cfg : PostProcessingConfiguration) (elem : XmlNode),
      (∀ x ∈ elem.attributes, x.name = "version" → (stoiOpt x.value).isSome = true) →
      ∃ a, ArtifactTagHandler cfg elem =
        some ({ cfg with artifacts := cfg.artifacts ++ [a] }, true))
    ∧ ∀ (cfg : PostProcessingConfiguration) (elem : XmlNode) (x : XmlAttr),
      x ∈ elem.attributes → x.name = "version" → stoiOpt x.value = none →
      ArtifactTagHandler cfg elem = none := by
  constructor
  · intro cfg elem hok
    obtain ⟨⟨a, v⟩, hfold⟩ := artifactAttrFold_total elem.attributes {} none hok
    unfold ArtifactTagHandler
    rw [hfold]
    exact ⟨_, rfl⟩
  · intro cfg elem x hx hxn hxs
    unfold ArtifactTagHandler
    rw [artifactAttrFold_bad_version elem.attributes {} none x hx hxn hxs]

/-- Claim C10, witness: a numeric version attribute (with surrounding
whitespace) is accepted and appends one artifact; a non-numeric one and one
exceeding the 32-bit int range both throw. -/
theorem c10_witness :
    (∃ a, ArtifactTagHandler {} c10wElemGood =
      some ({ ({} : PostProcessingConfiguration) with
                artifacts := ({} : PostProcessingConfiguration).artifacts ++ [a] }, true))
    ∧ ArtifactTagHandler {} c10wElemBad = none
    ∧ ArtifactTagHandler {} c10wElemOverflow = none :=
  ⟨c10_unguarded_version.1 {} c10wElemGood (by decide),
   c10_unguarded_version.2 {} c10wElemBad ⟨"version", "x7"⟩ (by decide) rfl (by decide),
   c10_unguarded_version.2 {} c10wElemOverflow ⟨"version", "2147483648"⟩
     (by decide) rfl (by decide)⟩

/--
Claim C8 (code bug): an `abi` entry whose text is not one of the 8 known
architecture strings does not produce a diagnostic-and-continue failure —
`kStringToAbiMap.at` throws `std::out_of_range`, aborting the whole pass, so
sibling entries are never processed; with a known string, the handler records
the entries and succeeds.
-/
theorem c8_abi_lookup_throws :
    AbiGroupTagHandler {} c8elemBad = none ∧
    AbiGroupTagHandler {} c8elemBadSib = none ∧
    AbiGroupTagHandler {} c8elemGood =
      some ({ abi_groups := [("arm", [Abi.kX86, Abi.kMips])] }, true) := by
  decide

lemma glChildStep_paths (acc : GlTexture) (c : XmlNode) :
    (glChildStep acc c).texture_paths = acc.texture_paths ++ childPathsOf c := by
  unfold glChildStep childPathsOf
  by_cases h : c.name = "gl-texture"
  · rw [if_neg (not_not_intro h), if_pos h]
  · rw [if_pos h, if_neg h]
    simp

lemma glPushes_length (cs : List XmlNode) :
    ∀ acc, (glPushes acc cs).length = cs.length := by
  induction cs with
  | nil => intro acc; rfl
  | cons c rest ih =>
    intro acc
    unfold glPushes
    simp [ih]

lemma glPushes_get_paths :
    ∀ (cs : List XmlNode) (acc : GlTexture) (k : Nat)
      (hk : k < (glPushes acc cs).length),
    ((glPushes acc cs).get ⟨k, hk⟩).texture_paths =
      acc.texture_paths ++ ((cs.take (k + 1)).map childPathsOf).flatten := by
  intro cs
  induction cs with
  | nil =>
    intro acc k hk
    exact absurd hk (by simp [glPushes])
  | cons c rest ih =>
    intro acc k hk
    cases k with
    | zero =>
      show (glChildStep acc c).texture_paths = _
      rw [glChildStep_paths]
      simp
    | succ k' =>
      have hk' : k' < (glPushes (glChildStep acc c) rest).length := by
        have := hk
        simp [glPushes] at this
        simpa [glPushes_length] using this
      have hstep : ((glPushes acc (c :: rest)).get ⟨k' + 1, hk⟩) =
          ((glPushes (glChildStep acc c) rest).get ⟨k', hk'⟩) := rfl
      rw [hstep, ih (glChildStep acc c) k' hk', glChildStep_paths]
      simp [List.append_assoc]

/--
Claim C9: the GL texture group handler pushes its (never reset) accumulator
once per child-loop iteration — for a group element with N children, N entries
enter the group, and the entry pushed at the k-th child carries the
concatenated texture paths of children 1 through k, not only the k-th child's
own paths.
-/
theorem c9_gl_accumulator (cfg : PostProcessingConfiguration) (elem : XmlNode)
    (hl : ¬ getLabel elem = "") :
    ((GlTextureGroupTagHandler cfg elem).1.gl_texture_groups =
      updateGroup cfg.gl_texture_groups (getLabel elem)
        (fun g => g ++ glPushes {} elem.childElements))
    ∧ (glPushes ({} : GlTexture) elem.childElements).length = elem.childElements.length
    ∧ ∀ (k : Nat) (hk : k < (glPushes ({} : GlTexture) elem.childElements).length),
      ((glPushes ({} : GlTexture) elem.childElements).get ⟨k, hk⟩).texture_paths =
        ((elem.childElements.take (k + 1)).map childPathsOf).flatten := by
  refine ⟨?_, glPushes_length _ _, ?_⟩
  · unfold GlTextureGroupTagHandler
    rw [if_neg hl]
  · intro k hk
    have h := glPushes_get_paths elem.childElements {} k hk
    simpa using h

/-- Claim C9, witness: a group with a `gl-texture` child, a stray child and a
second `gl-texture` child receives three pushes, the second (for the stray
child) carrying the first child's paths and the third carrying both children's
paths. -/
theorem c9_witness :
    (GlTextureGroupTagHandler {} c9wElem).1.gl_texture_groups =
      [("tex", [{ name := "etc1", texture_paths := ["p1"] },
                { name := "etc1", texture_paths := ["p1"] },
                { name := "atc", texture_paths := ["p1", "p2"] }])] ∧
    (glPushes ({} : GlTexture) c9wElem.childElements).length = 3 ∧
    ((glPushes ({} : GlTexture) c9wElem.childElements).get ⟨1, by decide⟩).texture_paths =
      ["p1"] ∧
    ((glPushes ({} : GlTexture) c9wElem.childElements).get ⟨2, by decide⟩).texture_paths =
      ["p1", "p2"] := by
  have h := c9_gl_accumulator {} c9wElem (by decide)
  exact ⟨h.1.trans (by decide), h.2.1.trans (by decide),
    (h.2.2 1 (by decide)).trans (by decide), (h.2.2 2 (by decide)).trans (by decide)⟩

end Aapt
